import Mathlib

/-!
Shallow embedding of the rucene indexing/search core, verified against the
natural-language specification.  Definitions are translated from the Rust
sources:

* `src/core/codec/codec_util.rs`             — header/footer framing
* `src/core/index/doc_writer_delete_queue.rs` — delete queue, slices, seq-nos
* `src/core/index/doc_writer.rs`              — DocumentsWriter orchestration
* `src/core/search/bulk_scorer.rs`            — BulkScorer
* `src/core/search/mod.rs`                    — DocIterator / two_phase_next

Machine integers are modelled as `Nat`/`Int` with explicit wrap-around where
it matters; fallible code returns `Except Err`.  Byte streams are `List Nat`
with every element < 256 by construction of the writers.
-/

/-- Error surface of the modelled code (error/mod.rs `ErrorKind`). -/
inductive Err where
  | corruptIndex (msg : String)
  | illegalArgument (msg : String)
  | alreadyClosed (msg : String)
  | ioError (msg : String)
deriving DecidableEq, Repr

/-! ## Data streams (DataOutput / DataInput)

Modelled from the spec: the `DataOutput`/`DataInput` typed-primitive layer
(spec section 2 item 2: fixed-width big-endian integers, variable-length
integers, length-prefixed strings) is not under `src/`; only its callers in
`codec_util.rs` are.  Fixed-width `i32` values are written big-endian, and
strings are written as a variable-length-integer byte count followed by the
raw bytes. -/

/-- Big-endian recomposition of four bytes. -/
def be32 (b0 b1 b2 b3 : Nat) : Nat :=
  ((b0 * 256 + b1) * 256 + b2) * 256 + b3

/-- Big-endian decomposition of a 32-bit value into four bytes. -/
def natToBe32 (n : Nat) : List Nat :=
  [n / 16777216 % 256, n / 65536 % 256, n / 256 % 256, n % 256]

/-- Reinterpret a 32-bit unsigned value as a signed `i32`. -/
def i32ofNat (n : Nat) : Int :=
  if n < 2147483648 then (n : Int) else (n : Int) - 4294967296

/-- `DataOutput::write_int`: big-endian two's-complement `i32`. -/
def write_int (v : Int) : List Nat :=
  natToBe32 ((v % 4294967296).toNat)

/-- Variable-length integer: 7-bit groups, low group first, high bit set on
all groups but the last (`DataOutput::write_vint`). -/
def vint_bytes (n : Nat) : List Nat :=
  if _h : n < 128 then [n] else (n % 128 + 128) :: vint_bytes (n / 128)
termination_by n
decreasing_by exact Nat.div_lt_self (by omega) (by omega)

/-- `DataOutput::write_string`: vint byte-length prefix, then the bytes.
Strings are modelled as their UTF-8 byte lists. -/
def write_string (s : List Nat) : List Nat :=
  vint_bytes s.length ++ s

/-- `DataInput::read_byte`. -/
def read_byte (bs : List Nat) : Except Err (Nat × List Nat) :=
  match bs with
  | [] => .error (.ioError "read past EOF")
  | b :: rest => .ok (b, rest)

/-- `DataInput::read_bytes` reading exactly `n` bytes. -/
def read_exact (n : Nat) (bs : List Nat) : Except Err (List Nat × List Nat) :=
  if n ≤ bs.length then .ok (bs.take n, bs.drop n)
  else .error (.ioError "read past EOF")

/-- `DataInput::read_int`: four bytes, big-endian, as `i32`. -/
def read_int (bs : List Nat) : Except Err (Int × List Nat) :=
  match bs with
  | b0 :: b1 :: b2 :: b3 :: rest => .ok (i32ofNat (be32 b0 b1 b2 b3), rest)
  | _ => .error (.ioError "read past EOF")

/-- Worker for `read_vint`; at most five 7-bit groups for an `i32`. -/
def read_vint_aux : Nat → List Nat → Nat → Nat → Except Err (Nat × List Nat)
  | 0, _, _, _ => .error (.ioError "invalid vInt detected")
  | fuel + 1, bs, shift, acc =>
    match bs with
    | [] => .error (.ioError "read past EOF")
    | b :: rest =>
      if b < 128 then .ok (acc + b * 2 ^ shift, rest)
      else read_vint_aux fuel rest (shift + 7) (acc + b % 128 * 2 ^ shift)

/-- `DataInput::read_vint`. -/
def read_vint (bs : List Nat) : Except Err (Nat × List Nat) :=
  read_vint_aux 5 bs 0 0

/-- `DataInput::read_string` (result kept as its byte list). -/
def read_string (bs : List Nat) : Except Err (List Nat × List Nat) := do
  let (len, bs) ← read_vint bs
  read_exact len bs

/-! ## Codec framing (`src/core/codec/codec_util.rs`) -/

/-- `CODEC_MAGIC: i32 = 0x3FD7_6C17`. -/
def CODEC_MAGIC : Int := 0x3FD76C17

/-- `FOOTER_MAGIC: i32 = !CODEC_MAGIC` (bitwise not on `i32`). -/
def FOOTER_MAGIC : Int := -0x3FD76C17 - 1

/-- `string_util::ID_LENGTH`. -/
def ID_LENGTH : Nat := 16

/-- `codec_util::write_header`.  The `DataOutput` is the byte list written so
far; the pair returns the output bytes together with the error, if any, so
that partially written output stays observable. -/
def write_header (out : List Nat) (codec : List Nat) (version : Int) :
    List Nat × Option Err :=
  if 128 ≤ codec.length then
    (out, some (.illegalArgument
      ("codec must be simple ASCII less than 128 characters, got length=" ++
        toString codec.length)))
  else
    (out ++ write_int CODEC_MAGIC ++ write_string codec ++ write_int version,
      none)

/-- `codec_util::write_index_header`.  Mirrors the source order: the id-length
check happens before anything is written, the header and the 16 id bytes are
written before the suffix length is validated. -/
def write_index_header (out : List Nat) (codec : List Nat) (version : Int)
    (id : List Nat) (suffix : List Nat) : List Nat × Option Err :=
  if id.length ≠ ID_LENGTH then
    (out, some (.illegalArgument "Invalid id"))
  else
    match write_header out codec version with
    | (out1, some e) => (out1, some e)
    | (out1, none) =>
      let out2 := out1 ++ id
      if 256 ≤ suffix.length then
        (out2, some (.illegalArgument
          ("suffix must be simple ASCII less than 256 characters, got length="
            ++ toString suffix.length)))
      else
        (out2 ++ [suffix.length] ++ suffix, none)

/-- `codec_util::header_length`. -/
def header_length (codec : List Nat) : Nat := 9 + codec.length

/-- `codec_util::index_header_length`. -/
def index_header_length (codec : List Nat) (suffix : List Nat) : Nat :=
  header_length codec + ID_LENGTH + 1 + suffix.length

/-- `codec_util::check_header_no_magic`. -/
def check_header_no_magic (bs : List Nat) (codec : List Nat)
    (min_ver max_ver : Int) : Except Err (Int × List Nat) := do
  let (actual_codec, bs) ← read_string bs
  if actual_codec ≠ codec then
    .error (.corruptIndex "codec mismatch")
  else do
    let (actual_ver, bs) ← read_int bs
    if actual_ver < min_ver ∨ max_ver < actual_ver then
      .error (.corruptIndex "index format either too new or too old")
    else
      .ok (actual_ver, bs)

/-- `codec_util::check_header`. -/
def check_header (bs : List Nat) (codec : List Nat) (min_ver max_ver : Int) :
    Except Err (Int × List Nat) := do
  let (actual_header, bs) ← read_int bs
  if actual_header ≠ CODEC_MAGIC then
    .error (.corruptIndex "codec header mismatch")
  else
    check_header_no_magic bs codec min_ver max_ver

/-- `codec_util::check_index_header_id`. -/
def check_index_header_id (bs : List Nat) (expected_id : List Nat) :
    Except Err (List Nat) := do
  let (actual_id, bs) ← read_exact ID_LENGTH bs
  if actual_id ≠ expected_id then
    .error (.corruptIndex "file mismatch (id)")
  else
    .ok bs

/-- `codec_util::check_index_header_suffix`. -/
def check_index_header_suffix (bs : List Nat) (expected_suffix : List Nat) :
    Except Err (List Nat) := do
  let (suffix_len, bs) ← read_byte bs
  let (suffix_bytes, bs) ← read_exact suffix_len bs
  if suffix_bytes ≠ expected_suffix then
    .error (.corruptIndex "file mismatch (suffix)")
  else
    .ok bs

/-- `codec_util::check_index_header`. -/
def check_index_header (bs : List Nat) (codec : List Nat) (min_ver max_ver : Int)
    (expected_id : List Nat) (expected_suffix : List Nat) :
    Except Err (Int × List Nat) := do
  let (version, bs) ← check_header bs codec min_ver max_ver
  let bs ← check_index_header_id bs expected_id
  let bs ← check_index_header_suffix bs expected_suffix
  .ok (version, bs)

/-- Whether a result is a `CorruptIndex` error. -/
def isCorrupt {α : Type} : Except Err α → Bool
  | .error (.corruptIndex _) => true
  | _ => false

/-! ### Checksum input and footer verification

A `ChecksumIndexInput` is a positioned input that also tracks the checksum of
every byte read so far.  `consumed` is the already-read prefix, `rest` the
bytes from the current file pointer to EOF; the checksum function `crc` is
abstract (CRC-32 in the source). -/

structure CsInput where
  consumed : List Nat
  rest : List Nat
deriving DecidableEq, Repr

/-- `read_int` on a checksum input. -/
def cs_read_int (inp : CsInput) : Except Err (Int × CsInput) :=
  match inp.rest with
  | b0 :: b1 :: b2 :: b3 :: r =>
    .ok (i32ofNat (be32 b0 b1 b2 b3), ⟨inp.consumed ++ [b0, b1, b2, b3], r⟩)
  | _ => .error (.ioError "read past EOF")

/-- Big-endian recomposition of a byte list. -/
def beBytes (l : List Nat) : Nat :=
  l.foldl (fun acc b => acc * 256 + b) 0

/-- `read_long` on a checksum input, kept as the raw 64-bit pattern (this is
exactly the `val as u64` view the source masks). -/
def cs_read_long_raw (inp : CsInput) : Except Err (Nat × CsInput) :=
  if 8 ≤ inp.rest.length then
    .ok (beBytes (inp.rest.take 8),
      ⟨inp.consumed ++ inp.rest.take 8, inp.rest.drop 8⟩)
  else .error (.ioError "read past EOF")

/-- `codec_util::footer_length`. -/
def footer_length : Nat := 16

/-- `codec_util::read_crc`: read an `i64` and reject it when any of the high
32 bits of its 64-bit pattern is set (`val as u64 & 0xFFFF_FFFF_0000_0000`).
For accepted values the `i64` equals the `Nat` returned here. -/
def read_crc (inp : CsInput) : Except Err (Nat × CsInput) := do
  let (val, inp) ← cs_read_long_raw inp
  if 4294967296 ≤ val then
    .error (.corruptIndex ("Illegal CRC-32 checksum: " ++ toString val))
  else
    .ok (val, inp)

/-- `codec_util::validate_footer`. -/
def validate_footer (inp : CsInput) : Except Err CsInput :=
  let remaining := inp.rest.length
  let expected := footer_length
  if remaining < expected then
    .error (.corruptIndex
      ("misplaced codec footer (file truncated?): remaining=" ++
        toString remaining ++ ", expected=" ++ toString expected))
  else if expected < remaining then
    .error (.corruptIndex
      ("misplaced codec footer (file extended?): remaining=" ++
        toString remaining ++ ", expected=" ++ toString expected))
  else do
    let (magic, inp) ← cs_read_int inp
    if magic ≠ FOOTER_MAGIC then
      .error (.corruptIndex "codec footer mismatch")
    else do
      let (algorithm_id, inp) ← cs_read_int inp
      if algorithm_id ≠ 0 then
        .error (.corruptIndex ("codec footer mismatch: unknown algorithm_id: "
          ++ toString algorithm_id))
      else
        .ok inp

/-- `codec_util::check_footer`.  `crc` abstracts the CRC-32 of the wrapped
`BufferedChecksumIndexInput`: `inp.consumed` is every byte read so far, so
`crc inp.consumed` after `validate_footer` covers offset 0 through the end of
the algorithm-id field. -/
def check_footer (crc : List Nat → Nat) (inp : CsInput) : Except Err Nat := do
  let inp ← validate_footer inp
  let actual_checksum := crc inp.consumed
  let (expected_checksum, _inp2) ← read_crc inp
  if actual_checksum ≠ expected_checksum then
    .error (.corruptIndex "checksum failed (hardware problems?)")
  else
    .ok actual_checksum

/-! ## Delete queue (`src/core/index/doc_writer_delete_queue.rs`)

The queue is a singly-linked list with a sentinel head node; only nodes
appended after the sentinel are ever applied.  In the model a node is
identified by its position in the append order: position 0 is the sentinel,
position `i ≥ 1` the `i`-th appended node; the queue's tail is always the
highest position.  A `DeleteSlice` holds two such positions.  The model is
the sequential semantics of the source (every mutex acquisition succeeds,
matching any single interleaving of the serialized operations). -/

/-- Delete terms, modelled by field/bytes only as an opaque string. -/
abbrev Term := String

/-- `DeleteNode` payloads (`enum DeleteNode`); `sentinel` is `None`,
queries are opaque identifiers. -/
inductive DeleteNodeData where
  | term (t : Term)
  | termArray (ts : List Term)
  | queryArray (qs : List Nat)
  | sentinel
deriving DecidableEq, Repr

/-- `DeleteSlice`: a half-open window `(slice_head, slice_tail]` of node
positions. -/
structure DeleteSlice where
  slice_head : Nat
  slice_tail : Nat
deriving DecidableEq, Repr

/-- `DocumentsWriterDeleteQueue`.  `nodes` are the appended (non-sentinel)
nodes in order, so the tail node has position `nodes.length`; the global
buffered-updates accumulator records each applied node together with its
`doc_id_upto` bound. -/
structure DeleteQueue where
  nodes : List DeleteNodeData
  next_seq_no : Nat
  generation : Nat
  global_slice : DeleteSlice
  global_buffered_updates : List (DeleteNodeData × Int)
deriving DecidableEq, Repr

/-- `DocId` sentinel (`core::search::NO_MORE_DOCS = i32::MAX`). -/
def NO_MORE_DOCS : Int := 2147483647

/-- Position of the queue's current tail node. -/
def DeleteQueue.tailPos (q : DeleteQueue) : Nat := q.nodes.length

/-- `DeleteSlice::new`: head and tail both at the given node. -/
def DeleteSlice.atTail (pos : Nat) : DeleteSlice := ⟨pos, pos⟩

/-- `DeleteSlice::is_empty`. -/
def DeleteSlice.is_empty (s : DeleteSlice) : Bool := s.slice_head == s.slice_tail

/-- `DeleteSlice::apply`: apply every node in `(head, tail]` to the buffered
updates, then reset `head ← tail`. -/
def DeleteSlice.applySlice (s : DeleteSlice) (buffered : List (DeleteNodeData × Int))
    (nodes : List DeleteNodeData) (doc_id_upto : Int) :
    DeleteSlice × List (DeleteNodeData × Int) :=
  if s.slice_head = s.slice_tail then (s, buffered)
  else
    let window := ((nodes.drop s.slice_head).take (s.slice_tail - s.slice_head))
    (⟨s.slice_tail, s.slice_tail⟩, buffered ++ window.map (fun n => (n, doc_id_upto)))

/-- `DocumentsWriterDeleteQueue::new` (with `start_seq_no`). -/
def DeleteQueue.mk_new (generation start_seq_no : Nat) : DeleteQueue :=
  { nodes := []
    next_seq_no := start_seq_no
    generation := generation
    global_slice := DeleteSlice.atTail 0
    global_buffered_updates := [] }

/-- `DocumentsWriterDeleteQueue::default`: generation 0, sequence numbers
start at 1. -/
def DeleteQueue.mk_default : DeleteQueue := DeleteQueue.mk_new 0 1

/-- `next_sequence_number`: `fetch_add(1)` returns the previous value. -/
def DeleteQueue.next_sequence_number (q : DeleteQueue) : Nat × DeleteQueue :=
  (q.next_seq_no, { q with next_seq_no := q.next_seq_no + 1 })

/-- `add_node`: append the node at the tail, then issue a sequence number. -/
def DeleteQueue.add_node (q : DeleteQueue) (data : DeleteNodeData) :
    Nat × DeleteQueue :=
  DeleteQueue.next_sequence_number { q with nodes := q.nodes ++ [data] }

/-- `update_slice_without_seq_no`: advance the slice tail if the queue tail
moved; report whether it did. -/
def DeleteQueue.update_slice_without_seq_no (q : DeleteQueue) (s : DeleteSlice) :
    Bool × DeleteSlice :=
  if s.slice_tail ≠ q.tailPos then (true, { s with slice_tail := q.tailPos })
  else (false, s)

/-- `try_apply_global_slice` (the `try_lock` succeeds in the sequential
model): advance the global slice and drain it into the global buffer. -/
def DeleteQueue.try_apply_global_slice (q : DeleteQueue) : DeleteQueue :=
  let (moved, s) := q.update_slice_without_seq_no q.global_slice
  if moved then
    let (s2, buf) := s.applySlice q.global_buffered_updates q.nodes NO_MORE_DOCS
    { q with global_slice := s2, global_buffered_updates := buf }
  else q

/-- `add_delete_queries`. -/
def DeleteQueue.add_delete_queries (q : DeleteQueue) (queries : List Nat) :
    Nat × DeleteQueue :=
  let (seq_no, q) := q.add_node (.queryArray queries)
  (seq_no, q.try_apply_global_slice)

/-- `add_delete_terms`. -/
def DeleteQueue.add_delete_terms (q : DeleteQueue) (terms : List Term) :
    Nat × DeleteQueue :=
  let (seq_no, q) := q.add_node (.termArray terms)
  (seq_no, q.try_apply_global_slice)

/-- `add_term_to_slice`: append a single-term node and make it the caller
slice's tail (the update invariant). -/
def DeleteQueue.add_term_to_slice (q : DeleteQueue) (t : Term) (s : DeleteSlice) :
    Nat × DeleteQueue × DeleteSlice :=
  let (seq_no, q) := q.add_node (.term t)
  let s := { s with slice_tail := q.tailPos }
  (seq_no, q.try_apply_global_slice, s)

/-- `update_slice`: issue a sequence number, then advance the slice tail if
new deletes arrived, reporting whether it advanced. -/
def DeleteQueue.update_slice (q : DeleteQueue) (s : DeleteSlice) :
    (Nat × Bool) × DeleteQueue × DeleteSlice :=
  let (seq_no, q) := q.next_sequence_number
  if q.tailPos ≠ s.slice_tail then
    ((seq_no, true), q, { s with slice_tail := q.tailPos })
  else
    ((seq_no, false), q, s)

/-- `new_slice`: a fresh empty slice at the current tail. -/
def DeleteQueue.new_slice (q : DeleteQueue) : DeleteSlice :=
  DeleteSlice.atTail q.tailPos

/-- `last_sequence_number`. -/
def DeleteQueue.last_sequence_number (q : DeleteQueue) : Nat :=
  q.next_seq_no - 1

/-- `skip_sequence_number`. -/
def DeleteQueue.skip_sequence_number (q : DeleteQueue) (jump : Nat) : DeleteQueue :=
  { q with next_seq_no := q.next_seq_no + jump }

/-- `clear`: reset the global slice to the current tail. -/
def DeleteQueue.clearQueue (q : DeleteQueue) : DeleteQueue :=
  { q with global_slice := ⟨q.tailPos, q.tailPos⟩ }

/-- The sequence-number-issuing operations of the delete queue (claim C2). -/
inductive DQOp where
  | addDeleteTerms (ts : List Term)
  | addDeleteQueries (qs : List Nat)
  | addTermToSlice (t : Term)
  | updateSlice
  | nextSequenceNumber
deriving DecidableEq, Repr

/-- A queue together with one caller slice (the DWPT-private slice used by
`add_term_to_slice` / `update_slice`). -/
structure DQEnv where
  queue : DeleteQueue
  slice : DeleteSlice
deriving DecidableEq, Repr

/-- One sequence-number-issuing operation; returns the issued number. -/
def DQEnv.step (e : DQEnv) (op : DQOp) : Nat × DQEnv :=
  match op with
  | .addDeleteTerms ts =>
    let (seq, q) := e.queue.add_delete_terms ts
    (seq, { e with queue := q })
  | .addDeleteQueries qs =>
    let (seq, q) := e.queue.add_delete_queries qs
    (seq, { e with queue := q })
  | .addTermToSlice t =>
    let (seq, q, s) := e.queue.add_term_to_slice t e.slice
    (seq, ⟨q, s⟩)
  | .updateSlice =>
    let ((seq, _adv), q, s) := e.queue.update_slice e.slice
    (seq, ⟨q, s⟩)
  | .nextSequenceNumber =>
    let (seq, q) := e.queue.next_sequence_number
    (seq, { e with queue := q })

/-- Run a list of operations, collecting the issued sequence numbers. -/
def DQEnv.runSeqs (e : DQEnv) : List DQOp → List Nat
  | [] => []
  | op :: ops =>
    let (seq, e2) := e.step op
    seq :: e2.runSeqs ops

/-- Final state after a list of operations. -/
def DQEnv.runState (e : DQEnv) : List DQOp → DQEnv
  | [] => e
  | op :: ops => ((e.step op).2).runState ops

/-! ## DocumentsWriter orchestration (`src/core/index/doc_writer.rs`)

Sequential-semantics model of the producer-facing operations, ticket queue
interaction and `do_flush`.  Components that live outside `src/`
(`flush_control.rs`, `doc_writer_flush_queue.rs`, `thread_doc_writer.rs`) are
modelled from the spec where the claims need them: the ticket queue is its
ticket count, a DWPT is its observable flush outcome, and flush-control
accounting that the claims never observe is kept as plain state fields. -/

/-- `WriterEvent` (`pub enum WriterEvent`). -/
inductive WEvent where
  | applyDeletes
  | mergePending
  | forcedPurge
  | flushFailed (segment : String)
  | deleteNewFiles (files : List String)
deriving DecidableEq, Repr

/-- A `DocumentsWriterPerThread` about to be flushed, reduced to what
`do_flush`/`flush_dwpt` observe: whether `dwpt.flush()` succeeds, its
`num_docs_in_ram`, its `files_to_delete` and its segment name. -/
structure DwptM where
  flushOk : Bool
  numDocsInRam : Nat
  filesToDelete : List String
  segName : String
deriving DecidableEq, Repr

/-- `DocumentsWriter` state.  `ticketCount` models
`ticket_queue.ticket_count()` and `activeThreadStates` models
`per_thread_pool.active_thread_state_count()`; the DWPT of the single
modelled producer thread is `threadSlice`/`dwptNumDocs`.  The flush-control
queue consumed by `next_pending_flush` is passed alongside the state as an
explicit `List DwptM` (flush_control.rs is not under `src/`). -/
structure DocWriter where
  closed : Bool
  queue : DeleteQueue
  threadSlice : DeleteSlice
  dwptNumDocs : Nat
  threadLastSeqNo : Nat
  numDocsInRam : Nat
  lastSeqNo : Nat
  events : List WEvent
  ticketCount : Nat
  activeThreadStates : Nat
  applyAllDeletes : Bool
  fullFlush : Bool
  flushOnRam : Bool
  deleteBytesUsed : Nat
  ramBufferSize : Nat
  onDeleteCalls : Nat
deriving DecidableEq, Repr

/-- `put_event`. -/
def DocWriter.put_event (w : DocWriter) (e : WEvent) : DocWriter :=
  { w with events := w.events ++ [e] }

/-- `ensure_open`. -/
def DocWriter.ensure_open (w : DocWriter) : Except Err Unit :=
  if w.closed then .error (.alreadyClosed "this IndexWriter is closed")
  else .ok ()

/-- `close`. -/
def DocWriter.close (w : DocWriter) : DocWriter :=
  { w with closed := true }

/-- `subtract_flushed_num_docs`. -/
def DocWriter.subtract_flushed_num_docs (w : DocWriter) (n : Nat) : DocWriter :=
  { w with numDocsInRam := w.numDocsInRam - n }

/-- `apply_all_deletes_local`: when the flush control requests it
(`get_and_reset_apply_all_deletes`), push a deletes ticket unless inside a
full flush, emit `ApplyDeletes`, and report that an event happened. -/
def DocWriter.apply_all_deletes_local (w : DocWriter) : Bool × DocWriter :=
  if w.applyAllDeletes then
    let w := { w with applyAllDeletes := false }
    let w := if ¬w.fullFlush then { w with ticketCount := w.ticketCount + 1 } else w
    (true, w.put_event .applyDeletes)
  else
    (false, w)

/-- `flush_dwpt`: enqueue the flush ticket, run `dwpt.flush()` recording
success or failure into the ticket, subtract the flushed doc count, and emit
`DeleteNewFiles` / `FlushFailed` events.  Returns `(flush result,
has_events, state)`. -/
def DocWriter.flush_dwpt (w : DocWriter) (dwpt : DwptM) :
    Except Err Unit × Bool × DocWriter :=
  let w := { w with ticketCount := w.ticketCount + 1 }
  let res : Except Err Unit :=
    if dwpt.flushOk then .ok () else .error (.ioError "dwpt flush failed")
  let w := w.subtract_flushed_num_docs dwpt.numDocsInRam
  let (hasEvents, w) :=
    if dwpt.filesToDelete ≠ [] then (true, w.put_event (.deleteNewFiles dwpt.filesToDelete))
    else (false, w)
  let (hasEvents, w) :=
    if ¬dwpt.flushOk then (true, w.put_event (.flushFailed dwpt.segName))
    else (hasEvents, w)
  (res, hasEvents, w)

/-- `flush_control.after_flush`: RAM accounting the modelled claims never
observe (flush_control.rs is not under `src/`). -/
def DocWriter.after_flush (w : DocWriter) (_dwpt : DwptM) : DocWriter := w

/-- The `loop` inside `do_flush`: flush the current DWPT; on success with a
ticket backlog of at least the active thread-state count, emit `ForcedPurge`
and break; otherwise propagate a flush failure or continue with the next
pending flush (`flush_control.next_pending_flush`, the head of `pending`). -/
def DocWriter.do_flush_loop (w : DocWriter) (dwpt : DwptM) (pending : List DwptM) :
    Except Err Unit × Bool × DocWriter × List DwptM :=
  let (res, hasEv, w) := w.flush_dwpt dwpt
  match res with
  | .ok _ =>
    if w.activeThreadStates ≤ w.ticketCount then
      -- backlog: the purge thread cannot keep up; stall the producers
      let w := w.put_event .forcedPurge
      (.ok (), hasEv, w.after_flush dwpt, pending)
    else
      let w := w.after_flush dwpt
      match pending with
      | [] => (.ok (), hasEv, w, [])
      | d :: rest =>
        let (res2, hasEv2, w, rest2) := w.do_flush_loop d rest
        (res2, hasEv || hasEv2, w, rest2)
  | .error e =>
    (.error e, hasEv, w.after_flush dwpt, pending)

/-- The tail of `do_flush` after the loop: emit `MergePending` when any
event happened, then, when buffered deletes consume more than half the RAM
budget, force them to apply. -/
def DocWriter.do_flush_finish (w : DocWriter) (hasEvents : Bool)
    (pending : List DwptM) : Except Err Bool × DocWriter × List DwptM :=
  let w := if hasEvents then w.put_event .mergePending else w
  if w.flushOnRam ∧ w.ramBufferSize / 2 < w.deleteBytesUsed then
    let (applied, w) := w.apply_all_deletes_local
    let w := if ¬applied then w.put_event .applyDeletes else w
    (.ok true, w, pending)
  else
    (.ok hasEvents, w, pending)

/-- `do_flush`. -/
def DocWriter.do_flush (w : DocWriter) (dwpt : DwptM) (pending : List DwptM) :
    Except Err Bool × DocWriter × List DwptM :=
  match w.do_flush_loop dwpt pending with
  | (.error e, _, w, pending) => (.error e, w, pending)
  | (.ok _, hasEvents, w, pending) => w.do_flush_finish hasEvents pending

/-- `delete_terms`: append to the delete queue (note: no `ensure_open`),
notify the flush control, opportunistically apply deletes, record the last
sequence number. -/
def DocWriter.delete_terms (w : DocWriter) (terms : List Term) :
    Except Err (Nat × Bool) × DocWriter :=
  let (seq_no, q) := w.queue.add_delete_terms terms
  let w := { w with queue := q, onDeleteCalls := w.onDeleteCalls + 1 }
  let (applied, w) := w.apply_all_deletes_local
  let w := { w with lastSeqNo := max w.lastSeqNo seq_no }
  (.ok (seq_no, applied), w)

/-- `delete_queries` (no `ensure_open`, mirroring the source). -/
def DocWriter.delete_queries (w : DocWriter) (queries : List Nat) :
    Except Err (Nat × Bool) × DocWriter :=
  let (seq_no, q) := w.queue.add_delete_queries queries
  let w := { w with queue := q, onDeleteCalls := w.onDeleteCalls + 1 }
  let (applied, w) := w.apply_all_deletes_local
  let w := { w with lastSeqNo := max w.lastSeqNo seq_no }
  (.ok (seq_no, applied), w)

/-- `pre_update`: `ensure_open` first, then help drain pending flushes.
Stall waiting (`wait_if_stalled`) is a no-op in the sequential model. -/
def DocWriter.pre_update (w : DocWriter) (pending : List DwptM) :
    Except Err Bool × DocWriter × List DwptM :=
  match w.ensure_open with
  | .error e => (.error e, w, pending)
  | .ok _ =>
    match pending with
    | [] => (.ok false, w, [])
    | d :: rest =>
      match w.do_flush d rest with
      | (.error e, w, pending) => (.error e, w, pending)
      | (.ok hasEv, w, pending) => (.ok hasEv, w, pending)

/-- `DocumentsWriterPerThread::update_documents` for a block of `numDocs`
documents.  Modelled from the spec (thread_doc_writer.rs is not under
`src/`): ingest the block, bind a present `del_term` to it via
`add_term_to_slice` on the DWPT's private slice, otherwise `update_slice`;
one sequence number either way; `num_docs_in_ram` grows by the block size. -/
def DocWriter.dwpt_update_documents (w : DocWriter) (numDocs : Nat)
    (del_term : Option Term) : Nat × DocWriter :=
  let w := { w with dwptNumDocs := w.dwptNumDocs + numDocs }
  match del_term with
  | some t =>
    let (seq, q, s) := w.queue.add_term_to_slice t w.threadSlice
    (seq, { w with queue := q, threadSlice := s })
  | none =>
    let ((seq, _adv), q, s) := w.queue.update_slice w.threadSlice
    (seq, { w with queue := q, threadSlice := s })

/-- `do_update_documents`: `ensure_open`, DWPT ingest, RAM accounting,
`do_after_document` (no flush triggered in the model), last-seq-no update. -/
def DocWriter.do_update_documents (w : DocWriter) (numDocs : Nat)
    (del_term : Option Term) : Except Err Nat × DocWriter :=
  match w.ensure_open with
  | .error e => (.error e, w)
  | .ok _ =>
    let dwpt_num_docs := w.dwptNumDocs
    let (seq_no, w) := w.dwpt_update_documents numDocs del_term
    let w := { w with numDocsInRam := w.numDocsInRam + (w.dwptNumDocs - dwpt_num_docs) }
    let w := { w with threadLastSeqNo := seq_no }
    (.ok seq_no, w)

/-- `post_update` with no flush-pending DWPT returned by the flush policy. -/
def DocWriter.post_update (w : DocWriter) (hasEvents : Bool)
    (pending : List DwptM) : Except Err Bool × DocWriter × List DwptM :=
  let (applied, w) := w.apply_all_deletes_local
  let hasEvents := hasEvents || applied
  match pending with
  | [] => (.ok hasEvents, w, [])
  | d :: rest =>
    match w.do_flush d rest with
    | (.error e, w, pending) => (.error e, w, pending)
    | (.ok ev, w, pending) => (.ok (hasEvents || ev), w, pending)

/-- `update_documents`. -/
def DocWriter.update_documents (w : DocWriter) (numDocs : Nat)
    (del_term : Option Term) (pending : List DwptM) :
    Except Err (Nat × Bool) × DocWriter × List DwptM :=
  match w.pre_update pending with
  | (.error e, w, pending) => (.error e, w, pending)
  | (.ok hasEvents, w, pending) =>
    match w.do_update_documents numDocs del_term with
    | (.error e, w) => (.error e, w, pending)
    | (.ok seq_no, w) =>
      match w.post_update hasEvents pending with
      | (.error e, w, pending) => (.error e, w, pending)
      | (.ok hasEvent, w, pending) => (.ok (seq_no, hasEvent), w, pending)

/-- `update_document` (single document: a block of size one). -/
def DocWriter.update_document (w : DocWriter) (del_term : Option Term)
    (pending : List DwptM) : Except Err (Nat × Bool) × DocWriter × List DwptM :=
  match w.pre_update pending with
  | (.error e, w, pending) => (.error e, w, pending)
  | (.ok hasEvents, w, pending) =>
    match w.do_update_documents 1 del_term with
    | (.error e, w) => (.error e, w, pending)
    | (.ok seq_no, w) =>
      match w.post_update hasEvents pending with
      | (.error e, w, pending) => (.error e, w, pending)
      | (.ok hasEvent, w, pending) => (.ok (seq_no, hasEvent), w, pending)

/-! ## Scorers and the bulk scorer
(`src/core/search/mod.rs`, `src/core/search/bulk_scorer.rs`)

A scorer is modelled by the list of DocIds its approximation will still
produce (strictly increasing, all in `[0, NO_MORE_DOCS)`), a `matches`
predicate, and the `support_two_phase` flag.  For a scorer that does not
support two-phase iteration, `matches()` defaults to `true` and
`approximate_next`/`approximate_advance` default to `next`/`advance`
(trait `DocIterator` defaults), so a single candidate list serves both
modes. -/

/-- Scorer state for `two_phase_next`: the current `doc_id()` and the
DocIds the approximation will still produce. -/
structure TPState where
  doc : Int
  rem : List Int
deriving DecidableEq, Repr

/-- `approximate_next` on the model scorer: pop the next candidate, or
exhaust with `NO_MORE_DOCS`. -/
def approxNext (s : TPState) : TPState :=
  match s.rem with
  | [] => ⟨NO_MORE_DOCS, []⟩
  | d :: r => ⟨d, r⟩

/-- `core::search::two_phase_next`: starting from the current doc, advance
the approximation until `matches()` confirms or the iterator exhausts. -/
def two_phase_next (f : Int → Bool) (s : TPState) : Int × TPState :=
  if s.doc = NO_MORE_DOCS then (NO_MORE_DOCS, s)
  else if f s.doc then (s.doc, s)
  else two_phase_next f (approxNext s)
termination_by s.rem.length + (if s.doc = NO_MORE_DOCS then 0 else 1)
decreasing_by
  unfold approxNext
  rcases h : s.rem with _ | ⟨d, r⟩
  · simp_all
  · simp_all
    split <;> omega

/-- A two-phase scorer's `next()`: advance the approximation once, then
confirm via `two_phase_next` (the source helper's intended protocol,
spec section 4.7 two-phase iteration). -/
def tpNextDoc (f : Int → Bool) (s : TPState) : Int × TPState :=
  two_phase_next f (approxNext s)

/-- Enumerate DocIds by repeated `next()` until `NO_MORE_DOCS`, which is
included as the final element.  `fuel` bounds the recursion; it is given as
`rem.length + 1`, enough to reach exhaustion. -/
def enumNextAux (f : Int → Bool) : Nat → TPState → List Int
  | 0, _ => []
  | fuel + 1, s =>
    let (d, s2) := tpNextDoc f s
    if d = NO_MORE_DOCS then [NO_MORE_DOCS] else d :: enumNextAux f fuel s2

/-- The DocId sequence of a fresh two-phase scorer over candidate list
`docs`, enumerated via `next()` (`doc_id() = -1` before the first advance). -/
def enumNext (f : Int → Bool) (docs : List Int) : List Int :=
  enumNextAux f (docs.length + 1) ⟨-1, docs⟩

/-- Enumerate DocIds by repeated `approximate_next()` until `NO_MORE_DOCS`
(included as the final element). -/
def enumApproxAux : Nat → TPState → List Int
  | 0, _ => []
  | fuel + 1, s =>
    let s2 := approxNext s
    if s2.doc = NO_MORE_DOCS then [NO_MORE_DOCS] else s2.doc :: enumApproxAux fuel s2

/-- The DocId sequence of a fresh scorer over candidate list `docs`,
enumerated via `approximate_next()`. -/
def enumApprox (docs : List Int) : List Int :=
  enumApproxAux (docs.length + 1) ⟨-1, docs⟩

/-! The bulk scorer (`BulkScorer::score` and its range helpers).  The
scorer's iterator state is the candidate list; `next`/`approximate_next` pop
its head, `approximate_advance(target)` drops candidates below `target`
(`DocIterator::advance` contract: first doc ≥ target, or `NO_MORE_DOCS`). -/

/-- `next` / `approximate_next`: the head candidate, or `NO_MORE_DOCS`. -/
def sNext (rem : List Int) : Int × List Int :=
  match rem with
  | [] => (NO_MORE_DOCS, [])
  | d :: r => (d, r)

/-- `advance` / `approximate_advance` to the first candidate ≥ `target`. -/
def sAdvance (target : Int) (rem : List Int) : Int × List Int :=
  match rem with
  | [] => (NO_MORE_DOCS, [])
  | d :: r => if d < target then sAdvance target r else (d, r)

/-- The common shape of the four collection loops in
`score_range_in_docs_set` / `score_range_all`: while `current_doc < max`,
collect `current_doc` when the branch's test `p` accepts it, then advance.
When the iterator exhausts, `current_doc` becomes `NO_MORE_DOCS ≥ max` and
the loop exits (a `DocId` is an `i32`, so `max ≤ NO_MORE_DOCS` always holds
in the source).  Returns (collected docs, final `current_doc`, iterator
state). -/
def scoreLoop (p : Int → Bool) (mx : Int) : Int → List Int →
    List Int × Int × List Int
  | cur, rem =>
    if cur < mx then
      let c := if p cur then [cur] else []
      match rem with
      | [] => (c, NO_MORE_DOCS, [])
      | d :: r =>
        let (cs, ret, rem2) := scoreLoop p mx d r
        (c ++ cs, ret, rem2)
    else ([], cur, rem)

/-- `BulkScorer::score_range_in_docs_set`: with a two-phase scorer collect
when `accept_docs.get(doc) && matches()`, stepping with `approximate_next`;
otherwise collect when `accept_docs.get(doc)`, stepping with `next`. -/
def score_range_in_docs_set (tp : Bool) (f : Int → Bool) (bits : Int → Bool)
    (cur : Int) (rem : List Int) (mx : Int) : List Int × Int × List Int :=
  if tp then scoreLoop (fun d => bits d && f d) mx cur rem
  else scoreLoop (fun d => bits d) mx cur rem

/-- `BulkScorer::score_range_all`: as above without the filter bit. -/
def score_range_all (tp : Bool) (f : Int → Bool)
    (cur : Int) (rem : List Int) (mx : Int) : List Int × Int × List Int :=
  if tp then scoreLoop f mx cur rem
  else scoreLoop (fun _ => true) mx cur rem

/-- `BulkScorer::score_range`. -/
def score_range (tp : Bool) (f : Int → Bool) (accept_docs : Option (Int → Bool))
    (cur : Int) (rem : List Int) (mx : Int) : List Int × Int × List Int :=
  match accept_docs with
  | some bits => score_range_in_docs_set tp f bits cur rem mx
  | none => score_range_all tp f cur rem mx

/-- `BulkScorer::score` on a fresh scorer with candidate list `docs`:
position with `approximate_next` when `min == 0 && max == NO_MORE_DOCS`,
else with `approximate_advance(min)`, then run the range loop. -/
def bulk_score (tp : Bool) (f : Int → Bool) (accept_docs : Option (Int → Bool))
    (docs : List Int) (mn mx : Int) : List Int × Int × List Int :=
  let (current_doc, rem) :=
    if mn = 0 ∧ mx = NO_MORE_DOCS then sNext docs else sAdvance mn docs
  score_range tp f accept_docs current_doc rem mx

/-- The documents a model scorer matches: for a two-phase scorer the
candidates confirmed by `matches()`, otherwise every candidate. -/
def matchedDocs (tp : Bool) (f : Int → Bool) (docs : List Int) : List Int :=
  if tp then docs.filter f else docs

/-- The filter-bit test: accept everything when no `Bits` is supplied. -/
def acceptsB (accept_docs : Option (Int → Bool)) (d : Int) : Bool :=
  match accept_docs with
  | some bits => bits d
  | none => true

/-! ## Concrete fixtures used by witnesses and counterexamples -/

/-- Codec name "Lucene62" as bytes. -/
def lucCodec : List Nat := [76, 117, 99, 101, 110, 101, 54, 50]

/-- A 16-byte segment id of 0x01 bytes. -/
def lucId : List Nat := List.replicate 16 1

/-- Suffix "_0" as bytes. -/
def lucSuffix : List Nat := [95, 48]

/-- A well-formed footer input: `FOOTER_MAGIC`, algorithm id 0, stored CRC 0,
with nothing consumed before the footer. -/
def footerInput : CsInput :=
  ⟨[], [192, 40, 147, 232, 0, 0, 0, 0, 0, 0, 0, 0, 0, 0, 0, 0]⟩

/-- A baseline writer state: open, fresh default delete queue, one active
thread state, empty ticket queue, no pending apply-deletes. -/
def baseWriter : DocWriter :=
  { closed := false
    queue := DeleteQueue.mk_default
    threadSlice := ⟨0, 0⟩
    dwptNumDocs := 0
    threadLastSeqNo := 0
    numDocsInRam := 0
    lastSeqNo := 0
    events := []
    ticketCount := 0
    activeThreadStates := 1
    applyAllDeletes := false
    fullFlush := false
    flushOnRam := false
    deleteBytesUsed := 0
    ramBufferSize := 0
    onDeleteCalls := 0 }

/-- `baseWriter` after `close()`. -/
def closedWriter : DocWriter := baseWriter.close

/-- A DWPT whose flush succeeds, with no buffered docs and no files to
delete. -/
def okDwpt : DwptM := ⟨true, 0, [], "_0"⟩

/-- The `matches()` predicate of the spec's two-phase scenario: candidates
2, 4, 5, 7, 9 are invalid. -/
def scenarioMatches (d : Int) : Bool :=
  !(d == 2 || d == 4 || d == 5 || d == 7 || d == 9)

/-- `matches()` used by the bulk-scorer witness. -/
def bsMatches (d : Int) : Bool := d != 3

/-- acceptance bits used by the bulk-scorer witness. -/
def bsBits (d : Int) : Bool := d != 2

/-! # Theorems -/

/-! ## Byte-stream round-trip lemmas -/

theorem be32_digits (n : Nat) :
    be32 (n / 16777216 % 256) (n / 65536 % 256) (n / 256 % 256) (n % 256) =
      n % 4294967296 := by
  unfold be32
  omega

theorem i32ofNat_emod (v : Int) (h1 : -2147483648 ≤ v) (h2 : v < 2147483648) :
    i32ofNat ((v % 4294967296).toNat % 4294967296) = v := by
  unfold i32ofNat
  split <;> omega

theorem read_int_write_int (v : Int) (rest : List Nat)
    (h1 : -2147483648 ≤ v) (h2 : v < 2147483648) :
    read_int (write_int v ++ rest) = .ok (v, rest) := by
  simp only [write_int, natToBe32, List.cons_append, List.nil_append, read_int,
    be32_digits]
  rw [i32ofNat_emod v h1 h2]

theorem vint_bytes_small (n : Nat) (h : n < 128) : vint_bytes n = [n] := by
  unfold vint_bytes
  simp [h]

theorem read_vint_small (n : Nat) (rest : List Nat) (h : n < 128) :
    read_vint (vint_bytes n ++ rest) = .ok (n, rest) := by
  rw [vint_bytes_small n h]
  simp [read_vint, read_vint_aux, h]

theorem read_exact_append (xs ys : List Nat) :
    read_exact xs.length (xs ++ ys) = .ok (xs, ys) := by
  simp [read_exact, List.take_left, List.drop_left]

theorem read_string_write_string (s : List Nat) (rest : List Nat)
    (h : s.length < 128) :
    read_string (write_string s ++ rest) = .ok (s, rest) := by
  simp only [write_string, List.append_assoc]
  rw [read_string, read_vint_small s.length (s ++ rest) h]
  simpa using read_exact_append s rest

/-! ## C7 — write-time argument validation -/

/-- C7: `write_header` fails if and only if the codec name's length is at
least 128 (so length 127 is accepted), and its failure is an
`IllegalArgument`; `write_index_header` returns an `IllegalArgument` error
whenever the id length differs from 16 or the suffix length is at least
256. -/
theorem write_time_argument_validation (out codec : List Nat) (v : Int) :
    ((write_header out codec v).2 ≠ none ↔ 128 ≤ codec.length) ∧
    (128 ≤ codec.length →
      ∃ msg, (write_header out codec v).2 = some (.illegalArgument msg)) ∧
    (∀ id suffix : List Nat, id.length ≠ 16 ∨ 256 ≤ suffix.length →
      ∃ msg, (write_index_header out codec v id suffix).2 =
        some (.illegalArgument msg)) := by
  refine ⟨?_, ?_, ?_⟩
  · unfold write_header
    split
    · simpa
    · simpa using by omega
  · intro h
    unfold write_header
    simp [h]
  · intro id suffix h
    unfold write_index_header
    rcases h with h | h
    · simp [show id.length ≠ ID_LENGTH from h]
    · by_cases hid : id.length = ID_LENGTH
      · simp only [hid]
        unfold write_header
        by_cases hc : 128 ≤ codec.length
        · simp [hc]
        · simp [hc, h]
      · simp [hid]

/-- C7 witness: codec length 127 accepted, 128 rejected with
`IllegalArgument`; id of length 1 and suffix of length 256 rejected with
`IllegalArgument`. -/
theorem write_time_argument_validation_witness :
    (write_header [] (List.replicate 127 65) 1).2 = none ∧
    (∃ msg, (write_header [] (List.replicate 128 65) 1).2 =
      some (.illegalArgument msg)) ∧
    (∃ msg, (write_index_header [] [76] 1 [0] [95]).2 =
      some (.illegalArgument msg)) ∧
    (∃ msg, (write_index_header [] [76] 1 (List.replicate 16 1)
      (List.replicate 256 95)).2 = some (.illegalArgument msg)) := by
  refine ⟨?_, ?_, ?_, ?_⟩
  · exact not_not.mp (fun hne =>
      absurd ((write_time_argument_validation [] (List.replicate 127 65) 1).1.mp hne)
        (by rw [List.length_replicate]; omega))
  · exact (write_time_argument_validation [] (List.replicate 128 65) 1).2.1
      (by rw [List.length_replicate])
  · exact (write_time_argument_validation [] [76] 1).2.2 [0] [95] (by simp)
  · exact (write_time_argument_validation [] [76] 1).2.2 (List.replicate 16 1)
      (List.replicate 256 95) (.inr (by rw [List.length_replicate]))

/-! ## C9 — `write_index_header` is not atomic on a suffix error -/

/-- C9: with a valid codec name and id but an over-long suffix,
`write_index_header` reports `IllegalArgument` only after the full header
and the 16 id bytes — exactly `header_length codec + 16` bytes — are already
in the output. -/
theorem write_index_header_partial_on_suffix (codec id suffix : List Nat)
    (v : Int) (hc : codec.length < 128) (hid : id.length = 16)
    (hs : 256 ≤ suffix.length) :
    (∃ msg, (write_index_header [] codec v id suffix).2 =
      some (.illegalArgument msg)) ∧
    (write_index_header [] codec v id suffix).1 =
      write_int CODEC_MAGIC ++ write_string codec ++ write_int v ++ id ∧
    (write_index_header [] codec v id suffix).1.length =
      header_length codec + 16 := by
  have hwh : write_header [] codec v =
      (write_int CODEC_MAGIC ++ write_string codec ++ write_int v, none) := by
    unfold write_header
    simp [Nat.not_le.mpr hc]
  have heq : write_index_header [] codec v id suffix =
      (write_int CODEC_MAGIC ++ write_string codec ++ write_int v ++ id,
        some (.illegalArgument
          ("suffix must be simple ASCII less than 256 characters, got length="
            ++ toString suffix.length))) := by
    unfold write_index_header
    rw [hwh]
    simp [show ¬ id.length ≠ ID_LENGTH by simp [hid, ID_LENGTH], hs]
  refine ⟨⟨_, by rw [heq]⟩, by rw [heq], ?_⟩
  rw [heq]
  simp [write_int, natToBe32, write_string, vint_bytes_small codec.length hc,
    header_length, hid]
  omega

/-- C9 witness at codec "Lucene62", id of 16 bytes, suffix of 256 bytes. -/
theorem write_index_header_partial_on_suffix_witness :
    (∃ msg, (write_index_header [] lucCodec 1 lucId (List.replicate 256 95)).2 =
      some (.illegalArgument msg)) ∧
    (write_index_header [] lucCodec 1 lucId (List.replicate 256 95)).1.length =
      header_length lucCodec + 16 := by
  have h := write_index_header_partial_on_suffix lucCodec lucId
    (List.replicate 256 95) 1 (by decide) (by decide)
    (by rw [List.length_replicate])
  exact ⟨h.1, h.2.2⟩

/-! ## C5 — index-header round trip -/

theorem except_bind_ok {α β : Type} (a : α) (f : α → Except Err β) :
    (Except.ok a : Except Err α) >>= f = f a := rfl

theorem except_bind_error {α β : Type} (e : Err) (f : α → Except Err β) :
    (Except.error e : Except Err α) >>= f = .error e := rfl

theorem read_exact_self (l : List Nat) : read_exact l.length l = .ok (l, []) := by
  simpa using read_exact_append l []

/-- On successful validation `write_index_header` emits exactly the header,
id, suffix-length byte and suffix. -/
theorem write_index_header_ok (codec id suffix : List Nat) (v : Int)
    (hc : codec.length < 128) (hid : id.length = 16) (hs : suffix.length < 256) :
    write_index_header [] codec v id suffix =
      (write_int CODEC_MAGIC ++ write_string codec ++ write_int v ++ id ++
        [suffix.length] ++ suffix, none) := by
  unfold write_index_header write_header
  simp [show ¬ id.length ≠ ID_LENGTH by simp [hid, ID_LENGTH],
    Nat.not_le.mpr hc, Nat.not_le.mpr hs]

/-- How `check_index_header` behaves on bytes produced by
`write_index_header`, for arbitrary expected codec, version range, id and
suffix. -/
theorem check_written_index_header (codec id suffix : List Nat) (v : Int)
    (codec2 id2 suffix2 : List Nat) (min2 max2 : Int)
    (hc : codec.length < 128) (hid : id.length = 16)
    (hv1 : -2147483648 ≤ v) (hv2 : v < 2147483648) :
    check_index_header
      (write_int CODEC_MAGIC ++ write_string codec ++ write_int v ++ id ++
        [suffix.length] ++ suffix) codec2 min2 max2 id2 suffix2 =
      if codec ≠ codec2 then .error (.corruptIndex "codec mismatch")
      else if v < min2 ∨ max2 < v then
        .error (.corruptIndex "index format either too new or too old")
      else if id ≠ id2 then .error (.corruptIndex "file mismatch (id)")
      else if suffix ≠ suffix2 then .error (.corruptIndex "file mismatch (suffix)")
      else .ok (v, []) := by
  simp only [check_index_header, check_header, check_header_no_magic,
    List.append_assoc]
  rw [read_int_write_int CODEC_MAGIC _ (by decide) (by decide)]
  simp only [except_bind_ok]
  rw [if_neg (by simp)]
  rw [read_string_write_string codec _ hc]
  simp only [except_bind_ok]
  by_cases hcc : codec ≠ codec2
  · simp [hcc, except_bind_error]
  · simp only [hcc, if_false]
    rw [read_int_write_int v _ hv1 hv2]
    simp only [except_bind_ok]
    by_cases hvv : v < min2 ∨ max2 < v
    · simp [hvv, except_bind_error]
    · simp only [hvv, if_false]
      simp only [except_bind_ok, check_index_header_id]
      rw [show ID_LENGTH = id.length by simp [ID_LENGTH, hid],
        read_exact_append id ([suffix.length] ++ suffix)]
      simp only [except_bind_ok]
      by_cases hii : id ≠ id2
      · simp [hii, except_bind_error]
      · simp only [hii, if_false]
        simp only [except_bind_ok, check_index_header_suffix, read_byte,
          List.cons_append, List.nil_append]
        rw [read_exact_self suffix]
        simp only [except_bind_ok]
        by_cases hss : suffix ≠ suffix2
        · simp [hss, except_bind_error]
        · simp [hss, except_bind_ok]

/-- C5: writing an index header with a valid codec name (< 128 bytes),
16-byte id and suffix (< 256 bytes) and reading it back with the same codec,
an accepted version range, the same id and the same suffix succeeds and
returns the version; reading with a changed codec name, id or suffix, or
with a version range excluding the written version, yields a `CorruptIndex`
error. -/
theorem index_header_roundtrip (codec id suffix : List Nat)
    (v min_ver max_ver : Int)
    (hc : codec.length < 128) (hid : id.length = 16) (hs : suffix.length < 256)
    (hv1 : -2147483648 ≤ v) (hv2 : v < 2147483648)
    (hmin : min_ver ≤ v) (hmax : v ≤ max_ver) :
    (write_index_header [] codec v id suffix).2 = none ∧
    check_index_header (write_index_header [] codec v id suffix).1
      codec min_ver max_ver id suffix = .ok (v, []) ∧
    (∀ codec2, codec2 ≠ codec →
      isCorrupt (check_index_header (write_index_header [] codec v id suffix).1
        codec2 min_ver max_ver id suffix) = true) ∧
    (∀ id2, id2 ≠ id →
      isCorrupt (check_index_header (write_index_header [] codec v id suffix).1
        codec min_ver max_ver id2 suffix) = true) ∧
    (∀ suffix2, suffix2 ≠ suffix →
      isCorrupt (check_index_header (write_index_header [] codec v id suffix).1
        codec min_ver max_ver id suffix2) = true) ∧
    (∀ min2 max2 : Int, ¬(min2 ≤ v ∧ v ≤ max2) →
      isCorrupt (check_index_header (write_index_header [] codec v id suffix).1
        codec min2 max2 id suffix) = true) := by
  rw [write_index_header_ok codec id suffix v hc hid hs]
  refine ⟨rfl, ?_, ?_, ?_, ?_, ?_⟩
  · rw [check_written_index_header codec id suffix v codec id suffix
      min_ver max_ver hc hid hv1 hv2]
    simp [show ¬(v < min_ver ∨ max_ver < v) by omega]
  · intro codec2 hne
    rw [check_written_index_header codec id suffix v codec2 id suffix
      min_ver max_ver hc hid hv1 hv2]
    simp [Ne.symm hne, isCorrupt]
  · intro id2 hne
    rw [check_written_index_header codec id suffix v codec id2 suffix
      min_ver max_ver hc hid hv1 hv2]
    simp [show ¬(v < min_ver ∨ max_ver < v) by omega, Ne.symm hne, isCorrupt]
  · intro suffix2 hne
    rw [check_written_index_header codec id suffix v codec id suffix2
      min_ver max_ver hc hid hv1 hv2]
    simp [show ¬(v < min_ver ∨ max_ver < v) by omega, Ne.symm hne, isCorrupt]
  · intro min2 max2 hout
    rw [check_written_index_header codec id suffix v codec id suffix
      min2 max2 hc hid hv1 hv2]
    simp [show v < min2 ∨ max2 < v by omega, isCorrupt]

/-- C5 witness: codec "Lucene62", version 1, id 16 × 0x01, suffix "_0",
version range [0, 2]; reading back succeeds with version 1, while a changed
codec, id, suffix, or a range excluding 1 is CorruptIndex. -/
theorem index_header_roundtrip_witness :
    check_index_header (write_index_header [] lucCodec 1 lucId lucSuffix).1
      lucCodec 0 2 lucId lucSuffix = .ok (1, []) ∧
    isCorrupt (check_index_header (write_index_header [] lucCodec 1 lucId lucSuffix).1
      [88] 0 2 lucId lucSuffix) = true ∧
    isCorrupt (check_index_header (write_index_header [] lucCodec 1 lucId lucSuffix).1
      lucCodec 0 2 (List.replicate 16 2) lucSuffix) = true ∧
    isCorrupt (check_index_header (write_index_header [] lucCodec 1 lucId lucSuffix).1
      lucCodec 0 2 lucId [95, 49]) = true ∧
    isCorrupt (check_index_header (write_index_header [] lucCodec 1 lucId lucSuffix).1
      lucCodec 2 3 lucId lucSuffix) = true := by
  have h := index_header_roundtrip lucCodec lucId lucSuffix 1 0 2
    (by decide) (by decide) (by decide) (by decide) (by decide)
    (by decide) (by decide)
  exact ⟨h.2.1, h.2.2.1 [88] (by decide), h.2.2.2.1 (List.replicate 16 2) (by decide),
    h.2.2.2.2.1 [95, 49] (by decide), h.2.2.2.2.2 2 3 (by omega)⟩


/-! ## C6 — footer verification -/

/-- Closed-form evaluation of `check_footer` on an input with exactly 16
bytes remaining. -/
theorem check_footer_eval (crc : List Nat → Nat) (con : List Nat)
    (b0 b1 b2 b3 b4 b5 b6 b7 b8 b9 b10 b11 b12 b13 b14 b15 : Nat) :
    check_footer crc ⟨con, [b0, b1, b2, b3, b4, b5, b6, b7,
                            b8, b9, b10, b11, b12, b13, b14, b15]⟩ =
      if i32ofNat (be32 b0 b1 b2 b3) ≠ FOOTER_MAGIC then
        .error (.corruptIndex "codec footer mismatch")
      else if i32ofNat (be32 b4 b5 b6 b7) ≠ 0 then
        .error (.corruptIndex ("codec footer mismatch: unknown algorithm_id: "
          ++ toString (i32ofNat (be32 b4 b5 b6 b7))))
      else if 4294967296 ≤ beBytes [b8, b9, b10, b11, b12, b13, b14, b15] then
        .error (.corruptIndex ("Illegal CRC-32 checksum: "
          ++ toString (beBytes [b8, b9, b10, b11, b12, b13, b14, b15])))
      else if crc (con ++ [b0, b1, b2, b3, b4, b5, b6, b7]) ≠
          beBytes [b8, b9, b10, b11, b12, b13, b14, b15] then
        .error (.corruptIndex "checksum failed (hardware problems?)")
      else .ok (beBytes [b8, b9, b10, b11, b12, b13, b14, b15]) := by
  simp only [check_footer, validate_footer, footer_length, List.length_cons,
    List.length_nil]
  rw [if_neg (by omega), if_neg (by omega)]
  simp only [cs_read_int, except_bind_ok, except_bind_error]
  by_cases hm : i32ofNat (be32 b0 b1 b2 b3) = FOOTER_MAGIC
  · by_cases ha : i32ofNat (be32 b4 b5 b6 b7) = 0
    · by_cases hb : 4294967296 ≤ beBytes [b8, b9, b10, b11, b12, b13, b14, b15]
      · simp [hm, ha, hb, read_crc, cs_read_long_raw, except_bind_ok,
          except_bind_error]
      · by_cases hcrc : crc (con ++ [b0, b1, b2, b3, b4, b5, b6, b7]) =
            beBytes [b8, b9, b10, b11, b12, b13, b14, b15]
        · simp [hm, ha, hb, hcrc, read_crc, cs_read_long_raw, except_bind_ok,
            except_bind_error]
        · simp [hm, ha, hb, hcrc, read_crc, cs_read_long_raw, except_bind_ok,
            except_bind_error]
    · simp [hm, ha, read_crc, cs_read_long_raw, except_bind_ok,
        except_bind_error]
  · simp [hm, except_bind_error]

/-- C6: `check_footer` reports `CorruptIndex` when the bytes remaining at
the footer position differ from 16 (truncation below, extension above), when
the footer magic is not `!CODEC_MAGIC`, when the algorithm id is not 0, when
any of the high 32 bits of the stored CRC pattern is set, or when the
computed checksum differs from the stored one; when none of these hold it
succeeds and returns the checksum. -/
theorem check_footer_characterization (crc : List Nat → Nat) (inp : CsInput) :
    (inp.rest.length < 16 →
      check_footer crc inp = .error (.corruptIndex
        ("misplaced codec footer (file truncated?): remaining=" ++
          toString inp.rest.length ++ ", expected=" ++ toString footer_length))) ∧
    (16 < inp.rest.length →
      check_footer crc inp = .error (.corruptIndex
        ("misplaced codec footer (file extended?): remaining=" ++
          toString inp.rest.length ++ ", expected=" ++ toString footer_length))) ∧
    (∀ b0 b1 b2 b3 b4 b5 b6 b7 b8 b9 b10 b11 b12 b13 b14 b15 : Nat,
      inp.rest = [b0, b1, b2, b3, b4, b5, b6, b7,
                  b8, b9, b10, b11, b12, b13, b14, b15] →
      (i32ofNat (be32 b0 b1 b2 b3) ≠ FOOTER_MAGIC →
        check_footer crc inp = .error (.corruptIndex "codec footer mismatch")) ∧
      (i32ofNat (be32 b0 b1 b2 b3) = FOOTER_MAGIC →
        i32ofNat (be32 b4 b5 b6 b7) ≠ 0 →
        check_footer crc inp = .error (.corruptIndex
          ("codec footer mismatch: unknown algorithm_id: " ++
            toString (i32ofNat (be32 b4 b5 b6 b7))))) ∧
      (i32ofNat (be32 b0 b1 b2 b3) = FOOTER_MAGIC →
        i32ofNat (be32 b4 b5 b6 b7) = 0 →
        4294967296 ≤ beBytes [b8, b9, b10, b11, b12, b13, b14, b15] →
        check_footer crc inp = .error (.corruptIndex
          ("Illegal CRC-32 checksum: " ++
            toString (beBytes [b8, b9, b10, b11, b12, b13, b14, b15])))) ∧
      (i32ofNat (be32 b0 b1 b2 b3) = FOOTER_MAGIC →
        i32ofNat (be32 b4 b5 b6 b7) = 0 →
        beBytes [b8, b9, b10, b11, b12, b13, b14, b15] < 4294967296 →
        crc (inp.consumed ++ [b0, b1, b2, b3, b4, b5, b6, b7]) ≠
          beBytes [b8, b9, b10, b11, b12, b13, b14, b15] →
        check_footer crc inp = .error
          (.corruptIndex "checksum failed (hardware problems?)")) ∧
      (i32ofNat (be32 b0 b1 b2 b3) = FOOTER_MAGIC →
        i32ofNat (be32 b4 b5 b6 b7) = 0 →
        beBytes [b8, b9, b10, b11, b12, b13, b14, b15] < 4294967296 →
        crc (inp.consumed ++ [b0, b1, b2, b3, b4, b5, b6, b7]) =
          beBytes [b8, b9, b10, b11, b12, b13, b14, b15] →
        check_footer crc inp =
          .ok (beBytes [b8, b9, b10, b11, b12, b13, b14, b15]))) := by
  obtain ⟨con, rest⟩ := inp
  refine ⟨?_, ?_, ?_⟩
  · intro h
    simp only at h
    simp only [check_footer, validate_footer, footer_length] at *
    simp only [if_pos h, except_bind_error]
  · intro h
    simp only at h
    simp only [check_footer, validate_footer, footer_length] at *
    rw [if_neg (by omega), if_pos h]
    simp only [except_bind_error]
  · intro b0 b1 b2 b3 b4 b5 b6 b7 b8 b9 b10 b11 b12 b13 b14 b15 h
    simp only at h
    subst h
    have key := check_footer_eval crc con b0 b1 b2 b3 b4 b5 b6 b7 b8 b9 b10
      b11 b12 b13 b14 b15
    refine ⟨?_, ?_, ?_, ?_, ?_⟩
    · intro hm
      rw [key, if_pos hm]
    · intro hm ha
      rw [key, if_neg (by simp [hm]), if_pos ha]
    · intro hm ha hb
      rw [key, if_neg (by simp [hm]), if_neg (by simp [ha]), if_pos hb]
    · intro hm ha hb hcrc
      rw [key, if_neg (by simp [hm]), if_neg (by simp [ha]),
        if_neg (by omega), if_pos (by simpa using hcrc)]
    · intro hm ha hb hcrc
      rw [key, if_neg (by simp [hm]), if_neg (by simp [ha]),
        if_neg (by omega), if_neg (by simpa using hcrc)]

/-- C6 witness: a valid 16-byte footer (magic, algorithm id 0, stored CRC 0)
with a checksum function agreeing on the consumed prefix succeeds; the same
bytes with one missing are reported as truncated. -/
theorem check_footer_characterization_witness :
    check_footer (fun _ => 0) footerInput = .ok 0 ∧
    check_footer (fun _ => 0) ⟨[], footerInput.rest.drop 1⟩ =
      .error (.corruptIndex
        ("misplaced codec footer (file truncated?): remaining=" ++
          toString (footerInput.rest.drop 1).length ++ ", expected=" ++
          toString footer_length)) := by
  constructor
  · have h := ((check_footer_characterization (fun _ => 0) footerInput).2.2
      192 40 147 232 0 0 0 0 0 0 0 0 0 0 0 0 rfl).2.2.2.2
    exact h (by decide) (by decide) (by decide) (by decide)
  · exact (check_footer_characterization (fun _ => 0)
      ⟨[], footerInput.rest.drop 1⟩).1 (by decide)

/-! ## C2 — sequence numbers are strictly increasing and unique -/

theorem try_apply_preserves_counter (q : DeleteQueue) :
    (q.try_apply_global_slice).next_seq_no = q.next_seq_no ∧
    (q.try_apply_global_slice).nodes = q.nodes := by
  unfold DeleteQueue.try_apply_global_slice DeleteQueue.update_slice_without_seq_no
  by_cases h : q.global_slice.slice_tail ≠ q.tailPos
  · simp [h]
  · simp [h]

/-- Every sequence-number-issuing operation returns the current counter and
increments it by exactly one. -/
theorem step_issues_one (e : DQEnv) (op : DQOp) :
    (e.step op).1 = e.queue.next_seq_no ∧
    (e.step op).2.queue.next_seq_no = e.queue.next_seq_no + 1 := by
  cases op <;>
    simp [DQEnv.step, DeleteQueue.add_delete_terms, DeleteQueue.add_delete_queries,
      DeleteQueue.add_term_to_slice, DeleteQueue.update_slice,
      DeleteQueue.add_node, DeleteQueue.next_sequence_number,
      (try_apply_preserves_counter _).1]
  case updateSlice => split <;> simp

/-- The issued sequence numbers of any operation list form the contiguous
range starting at the current counter. -/
theorem runSeqs_eq_range (ops : List DQOp) : ∀ e : DQEnv,
    e.runSeqs ops = List.range' e.queue.next_seq_no ops.length ∧
    (e.runState ops).queue.next_seq_no = e.queue.next_seq_no + ops.length := by
  induction ops with
  | nil => intro e; simp [DQEnv.runSeqs, DQEnv.runState]
  | cons op ops ih =>
    intro e
    have h1 := step_issues_one e op
    have h2 := ih (e.step op).2
    constructor
    · show (e.step op).1 :: ((e.step op).2.runSeqs ops) = _
      rw [h1.1, h2.1, h1.2, List.length_cons, List.range'_succ]
    · show ((e.step op).2.runState ops).queue.next_seq_no = _
      rw [h2.2, h1.2, List.length_cons]
      omega

/-- C2: over any sequence of sequence-number-issuing operations
(`add_delete_terms`, `add_delete_queries`, `add_term_to_slice`,
`update_slice`, `next_sequence_number`) the returned numbers are strictly
increasing (hence pairwise distinct), and the counter advances by exactly
one per operation. -/
theorem sequence_numbers_strictly_increasing (e : DQEnv) (ops : List DQOp) :
    List.Pairwise (· < ·) (e.runSeqs ops) ∧
    List.Pairwise (· ≠ ·) (e.runSeqs ops) ∧
    (e.runState ops).queue.next_seq_no = e.queue.next_seq_no + ops.length := by
  have h := runSeqs_eq_range ops e
  refine ⟨?_, ?_, h.2⟩
  · rw [h.1]
    exact List.pairwise_lt_range' _ _
  · rw [h.1]
    exact (List.pairwise_lt_range' _ _).imp Nat.ne_of_lt

/-! ## C10 — fresh default queue: counter starts at 1; skip reserves a gap -/

/-- C10: a fresh default delete queue reports `last_sequence_number() = 0`,
its first sequence-number-issuing operation returns 1, and
`skip_sequence_number(n)` advances the next issued number by exactly `n`
without appending any node. -/
theorem delete_queue_initial_and_skip :
    DeleteQueue.mk_default.last_sequence_number = 0 ∧
    (∀ (op : DQOp) (s : DeleteSlice),
      (DQEnv.step ⟨DeleteQueue.mk_default, s⟩ op).1 = 1) ∧
    (∀ (q : DeleteQueue) (n : Nat),
      ((q.skip_sequence_number n).next_sequence_number).1 =
        (q.next_sequence_number).1 + n ∧
      (q.skip_sequence_number n).nodes = q.nodes) := by
  refine ⟨rfl, ?_, ?_⟩
  · intro op s
    rw [(step_issues_one ⟨DeleteQueue.mk_default, s⟩ op).1]
    rfl
  · intro q n
    constructor
    · simp [DeleteQueue.skip_sequence_number, DeleteQueue.next_sequence_number]
    · rfl

/-! ## C4 — behaviour of producer-facing operations after `close()` -/

theorem apply_all_deletes_local_queue (w : DocWriter) :
    (w.apply_all_deletes_local).2.queue = w.queue ∧
    (w.apply_all_deletes_local).2.closed = w.closed := by
  unfold DocWriter.apply_all_deletes_local DocWriter.put_event
  by_cases ha : w.applyAllDeletes
  · by_cases hf : w.fullFlush <;> simp [ha, hf]
  · simp [ha]

/-- C4 counterexample: on a closed writer, `delete_terms` does not fail with
`AlreadyClosed`; it succeeds and appends to the delete queue (there is no
`ensure_open` on the delete paths). -/
theorem delete_terms_after_close_succeeds :
    closedWriter.closed = true ∧
    (closedWriter.delete_terms ["a"]).1 = .ok (1, false) ∧
    (closedWriter.delete_terms ["a"]).2.queue.nodes =
      [DeleteNodeData.termArray ["a"]] := by
  refine ⟨rfl, rfl, rfl⟩

/-- C4 as amended: after `close()`, `update_document` and `update_documents`
fail with `AlreadyClosed` and leave the writer state (and pending-flush
queue) unchanged, but `delete_terms` and `delete_queries` do not check the
closed flag: they succeed, consume a sequence number and append their node
to the delete queue. -/
theorem after_close_behavior (w : DocWriter) (pending : List DwptM) (n : Nat)
    (dt : Option Term) (ts : List Term) (qs : List Nat)
    (h : w.closed = true) :
    w.update_document dt pending =
      (.error (.alreadyClosed "this IndexWriter is closed"), w, pending) ∧
    w.update_documents n dt pending =
      (.error (.alreadyClosed "this IndexWriter is closed"), w, pending) ∧
    (∃ b, (w.delete_terms ts).1 = .ok (w.queue.next_seq_no, b)) ∧
    (w.delete_terms ts).2.queue.nodes =
      w.queue.nodes ++ [DeleteNodeData.termArray ts] ∧
    (∃ b, (w.delete_queries qs).1 = .ok (w.queue.next_seq_no, b)) ∧
    (w.delete_queries qs).2.queue.nodes =
      w.queue.nodes ++ [DeleteNodeData.queryArray qs] := by
  refine ⟨?_, ?_, ?_, ?_, ?_, ?_⟩
  · simp [DocWriter.update_document, DocWriter.pre_update, DocWriter.ensure_open, h]
  · simp [DocWriter.update_documents, DocWriter.pre_update, DocWriter.ensure_open, h]
  · refine ⟨(({ w with queue :=
      (w.queue.add_delete_terms ts).2, onDeleteCalls := w.onDeleteCalls + 1 } :
        DocWriter).apply_all_deletes_local).1, ?_⟩
    simp [DocWriter.delete_terms, DeleteQueue.add_delete_terms,
      DeleteQueue.add_node, DeleteQueue.next_sequence_number]
  · simp only [DocWriter.delete_terms]
    rw [(apply_all_deletes_local_queue _).1]
    simp [DeleteQueue.add_delete_terms, DeleteQueue.add_node,
      DeleteQueue.next_sequence_number,
      (try_apply_preserves_counter _).2]
  · refine ⟨(({ w with queue :=
      (w.queue.add_delete_queries qs).2, onDeleteCalls := w.onDeleteCalls + 1 } :
        DocWriter).apply_all_deletes_local).1, ?_⟩
    simp [DocWriter.delete_queries, DeleteQueue.add_delete_queries,
      DeleteQueue.add_node, DeleteQueue.next_sequence_number]
  · simp only [DocWriter.delete_queries]
    rw [(apply_all_deletes_local_queue _).1]
    simp [DeleteQueue.add_delete_queries, DeleteQueue.add_node,
      DeleteQueue.next_sequence_number,
      (try_apply_preserves_counter _).2]

/-- C4 witness: the amended statement at the concrete closed writer. -/
theorem after_close_behavior_witness :
    closedWriter.update_document none [] =
      (.error (.alreadyClosed "this IndexWriter is closed"), closedWriter, []) ∧
    closedWriter.update_documents 2 none [] =
      (.error (.alreadyClosed "this IndexWriter is closed"), closedWriter, []) ∧
    (∃ b, (closedWriter.delete_terms ["a"]).1 =
      .ok (closedWriter.queue.next_seq_no, b)) ∧
    (closedWriter.delete_queries [7]).2.queue.nodes =
      closedWriter.queue.nodes ++ [DeleteNodeData.queryArray [7]] := by
  have h := after_close_behavior closedWriter [] 2 none ["a"] [7] rfl
  exact ⟨h.1, h.2.1, h.2.2.1, h.2.2.2.2.2⟩

/-! ## C3 — ForcedPurge emission in `do_flush` -/

theorem flush_dwpt_parts (w : DocWriter) (dwpt : DwptM) :
    (w.flush_dwpt dwpt).1 =
      (if dwpt.flushOk then Except.ok () else .error (.ioError "dwpt flush failed")) ∧
    (WEvent.forcedPurge ∈ (w.flush_dwpt dwpt).2.2.events ↔
      WEvent.forcedPurge ∈ w.events) ∧
    (w.flush_dwpt dwpt).2.2.ticketCount = w.ticketCount + 1 ∧
    (w.flush_dwpt dwpt).2.2.activeThreadStates = w.activeThreadStates := by
  unfold DocWriter.flush_dwpt DocWriter.subtract_flushed_num_docs
    DocWriter.put_event
  by_cases hok : dwpt.flushOk <;> by_cases hfd : dwpt.filesToDelete = [] <;>
    simp [hok, hfd]

theorem apply_all_deletes_local_forcedPurge (w : DocWriter) :
    WEvent.forcedPurge ∈ (w.apply_all_deletes_local).2.events ↔
      WEvent.forcedPurge ∈ w.events := by
  unfold DocWriter.apply_all_deletes_local DocWriter.put_event
  by_cases ha : w.applyAllDeletes
  · by_cases hf : w.fullFlush <;> simp [ha, hf]
  · simp [ha]

/-- C3 counterexample: with one active thread state and an empty ticket
queue, a successful DWPT flush makes the backlog equal (not strictly
greater than) the active thread-state count, and `do_flush` still emits
`ForcedPurge`. -/
theorem forced_purge_at_equal_backlog :
    WEvent.forcedPurge ∈ (baseWriter.do_flush okDwpt []).2.1.events ∧
    ¬ (baseWriter.do_flush okDwpt []).2.1.ticketCount >
        baseWriter.activeThreadStates := by
  constructor
  · show WEvent.forcedPurge ∈ [WEvent.forcedPurge]
    simp
  · show ¬ (1 : Nat) > 1
    omega

/-- The post-loop tail of `do_flush` only ever appends `MergePending` /
`ApplyDeletes` events. -/
theorem do_flush_finish_events (W : DocWriter) (hasEv : Bool)
    (pending : List DwptM) :
    ∃ extra : List WEvent,
      (W.do_flush_finish hasEv pending).2.1.events = W.events ++ extra ∧
      WEvent.forcedPurge ∉ extra := by
  unfold DocWriter.do_flush_finish DocWriter.apply_all_deletes_local
    DocWriter.put_event
  cases hasEv <;>
    by_cases haad : W.applyAllDeletes <;>
    by_cases hff : W.fullFlush <;>
    by_cases hram : W.flushOnRam = true ∧ W.ramBufferSize / 2 < W.deleteBytesUsed <;>
    simp [haad, hff, hram]

theorem do_flush_finish_forcedPurge (W : DocWriter) (hasEv : Bool)
    (pending : List DwptM) :
    (WEvent.forcedPurge ∈ (W.do_flush_finish hasEv pending).2.1.events ↔
      WEvent.forcedPurge ∈ W.events) := by
  obtain ⟨extra, heq, hnot⟩ := do_flush_finish_events W hasEv pending
  rw [heq]
  simp [List.mem_append, hnot]

/-- C3 as amended: for a single flush (no further pending flushes), after a
successful DWPT flush `do_flush` emits `ForcedPurge` if and only if the
ticket-queue backlog — including this flush's freshly enqueued ticket — is
at least (`>=`, not strictly greater than) the number of active thread
states. -/
theorem forced_purge_condition (w : DocWriter) (dwpt : DwptM)
    (hev : WEvent.forcedPurge ∉ w.events) :
    WEvent.forcedPurge ∈ (w.do_flush dwpt []).2.1.events ↔
      (dwpt.flushOk = true ∧ w.activeThreadStates ≤ w.ticketCount + 1) := by
  rcases hfd2 : w.flush_dwpt dwpt with ⟨res, hasEv, w1⟩
  have parts := flush_dwpt_parts w dwpt
  rw [hfd2] at parts
  obtain ⟨hres, hmem, htc, hat⟩ := parts
  dsimp only at hres hmem htc hat
  by_cases hok : dwpt.flushOk
  · rw [hok] at hres
    simp only [if_true] at hres
    subst hres
    by_cases hcond : w1.activeThreadStates ≤ w1.ticketCount
    · have hloop : w.do_flush_loop dwpt [] =
          (.ok (), hasEv, w1.put_event .forcedPurge, []) := by
        unfold DocWriter.do_flush_loop
        rw [hfd2]
        simp [DocWriter.after_flush, hcond]
      simp only [DocWriter.do_flush, hloop, do_flush_finish_forcedPurge,
        DocWriter.put_event]
      simp only [List.mem_append, List.mem_singleton, or_true, true_iff]
      exact ⟨hok, by omega⟩
    · have hloop : w.do_flush_loop dwpt [] = (.ok (), hasEv, w1, []) := by
        unfold DocWriter.do_flush_loop
        rw [hfd2]
        simp [DocWriter.after_flush, hcond]
      simp only [DocWriter.do_flush, hloop, do_flush_finish_forcedPurge]
      rw [hmem]
      simp only [hev, false_iff, not_and]
      intro _
      omega
  · rw [if_neg hok] at hres
    subst hres
    have hloop : w.do_flush_loop dwpt [] =
        (.error (.ioError "dwpt flush failed"), hasEv, w1, []) := by
      unfold DocWriter.do_flush_loop
      rw [hfd2]
      simp [DocWriter.after_flush]
    simp only [DocWriter.do_flush, hloop]
    rw [hmem]
    simp [hev, hok]

/-- C3 witness: the amended condition at a concrete writer with ticket
backlog reaching the active thread-state count. -/
theorem forced_purge_condition_witness :
    WEvent.forcedPurge ∈ (baseWriter.do_flush okDwpt []).2.1.events := by
  exact (forced_purge_condition baseWriter okDwpt (by simp [baseWriter])).mpr
    ⟨rfl, by decide⟩

/-! ## C8 — two-phase equivalence -/

theorem filter_eq_dropWhile_cons (f : Int → Bool) (l : List Int) :
    l.filter f =
      match l.dropWhile (fun x => !f x) with
      | [] => []
      | x :: r => x :: r.filter f := by
  induction l with
  | nil => simp
  | cons a l ih =>
    by_cases hfa : f a
    · simp [hfa, List.dropWhile_cons]
    · simp only [List.filter_cons, hfa, if_false, List.dropWhile_cons]
      simpa [hfa] using ih

/-- `two_phase_next` scans from the current doc to the first confirmed
candidate (or exhausts). -/
theorem two_phase_next_seek (f : Int → Bool) (rem : List Int) : ∀ d : Int,
    d ≠ NO_MORE_DOCS → (∀ x ∈ rem, x ≠ NO_MORE_DOCS) →
    two_phase_next f ⟨d, rem⟩ =
      match (d :: rem).dropWhile (fun x => !f x) with
      | [] => (NO_MORE_DOCS, ⟨NO_MORE_DOCS, []⟩)
      | x :: r => (x, ⟨x, r⟩) := by
  induction rem with
  | nil =>
    intro d hd _
    rw [two_phase_next]
    by_cases hfd : f d
    · simp [hd, hfd, List.dropWhile_cons]
    · simp only [hd, if_false, hfd, List.dropWhile_cons, Bool.not_false,
        if_true, List.dropWhile_nil]
      rw [two_phase_next]
      simp [approxNext, hfd, hd]
  | cons x r ih =>
    intro d hd hrem
    rw [two_phase_next]
    by_cases hfd : f d
    · simp [hd, hfd, List.dropWhile_cons]
    · have hx : x ≠ NO_MORE_DOCS := hrem x (by simp)
      have hr : ∀ y ∈ r, y ≠ NO_MORE_DOCS := fun y hy => hrem y (by simp [hy])
      rw [if_neg hd, if_neg (by simp [hfd])]
      rw [show List.dropWhile (fun y => !f y) (d :: x :: r) =
        List.dropWhile (fun y => !f y) (x :: r) by
          rw [List.dropWhile_cons, if_pos (by simp [hfd])]]
      simp only [approxNext]
      exact ih x hx hr

theorem enumNextAux_spec (f : Int → Bool) : ∀ (fuel : Nat) (docs : List Int)
    (d : Int), (∀ x ∈ docs, x ≠ NO_MORE_DOCS) → docs.length < fuel →
    enumNextAux f fuel ⟨d, docs⟩ = docs.filter f ++ [NO_MORE_DOCS] := by
  intro fuel
  induction fuel with
  | zero => intro docs d _ h; omega
  | succ n ih =>
    intro docs d hdocs hlen
    match docs with
    | [] =>
      simp only [enumNextAux, tpNextDoc, approxNext]
      rw [two_phase_next]
      simp
    | x :: r =>
      have hx : x ≠ NO_MORE_DOCS := hdocs x (by simp)
      have hr : ∀ y ∈ r, y ≠ NO_MORE_DOCS := fun y hy => hdocs y (by simp [hy])
      simp only [enumNextAux, tpNextDoc, approxNext]
      rw [two_phase_next_seek f r x hx hr]
      rw [filter_eq_dropWhile_cons f (x :: r)]
      rcases hdw : (x :: r).dropWhile (fun y => !f y) with _ | ⟨y, rest⟩
      · simp
      · have hsub : List.Sublist (y :: rest) (x :: r) := by
          rw [← hdw]
          exact List.dropWhile_sublist _
        have hy : y ≠ NO_MORE_DOCS := hdocs y (hsub.mem (by simp))
        have hrest : ∀ z ∈ rest, z ≠ NO_MORE_DOCS :=
          fun z hz => hdocs z (hsub.mem (by simp [hz]))
        have hlrest : rest.length < n := by
          have := List.Sublist.length_le hsub
          simp only [List.length_cons] at this hlen
          omega
        simp only [hy, if_false]
        rw [ih rest y hrest hlrest]
        simp

theorem enumApproxAux_spec : ∀ (fuel : Nat) (docs : List Int) (d : Int),
    (∀ x ∈ docs, x ≠ NO_MORE_DOCS) → docs.length < fuel →
    enumApproxAux fuel ⟨d, docs⟩ = docs ++ [NO_MORE_DOCS] := by
  intro fuel
  induction fuel with
  | zero => intro docs d _ h; omega
  | succ n ih =>
    intro docs d hdocs hlen
    match docs with
    | [] => simp [enumApproxAux, approxNext]
    | x :: r =>
      have hx : x ≠ NO_MORE_DOCS := hdocs x (by simp)
      simp only [enumApproxAux, approxNext, hx, if_false]
      rw [ih r x (fun y hy => hdocs y (by simp [hy])) (by simp at hlen; omega)]
      simp

/-- C8: for a two-phase scorer over candidate list `docs`, the DocId
sequence produced by repeated `next()` equals the sequence produced by
repeated `approximate_next()` keeping only the docs `matches()` confirms,
both ending with `NO_MORE_DOCS`. -/
theorem two_phase_equivalence (f : Int → Bool) (docs : List Int)
    (h : ∀ x ∈ docs, x ≠ NO_MORE_DOCS) :
    enumApprox docs = docs ++ [NO_MORE_DOCS] ∧
    enumNext f docs = docs.filter f ++ [NO_MORE_DOCS] ∧
    enumNext f docs = (enumApprox docs).dropLast.filter f ++ [NO_MORE_DOCS] := by
  have h1 : enumApprox docs = docs ++ [NO_MORE_DOCS] :=
    enumApproxAux_spec (docs.length + 1) docs (-1) h (by omega)
  have h2 : enumNext f docs = docs.filter f ++ [NO_MORE_DOCS] :=
    enumNextAux_spec f (docs.length + 1) docs (-1) h (by omega)
  refine ⟨h1, h2, ?_⟩
  rw [h1, h2]
  simp

/-- C8 witness: the spec scenario — candidates 1..10 with 2, 4, 5, 7, 9
unconfirmed enumerates to [1, 3, 6, 8, 10, NO_MORE_DOCS] via `next()`. -/
theorem two_phase_equivalence_witness :
    enumNext scenarioMatches [1, 2, 3, 4, 5, 6, 7, 8, 9, 10] =
      [1, 3, 6, 8, 10, NO_MORE_DOCS] := by
  have h := (two_phase_equivalence scenarioMatches
    [1, 2, 3, 4, 5, 6, 7, 8, 9, 10] (by decide)).2.1
  rw [h]
  decide

/-! ## C1 — `BulkScorer::score` -/

theorem scoreLoop_spec (p : Int → Bool) (mx : Int) (hmx : mx ≤ NO_MORE_DOCS) :
    ∀ (rem : List Int) (cur : Int), List.Pairwise (· < ·) (cur :: rem) →
    (scoreLoop p mx cur rem).1 =
      (cur :: rem).filter (fun d => decide (d < mx) && p d) ∧
    mx ≤ (scoreLoop p mx cur rem).2.1 := by
  intro rem
  induction rem with
  | nil =>
    intro cur _
    rw [scoreLoop]
    by_cases hc : cur < mx
    · rw [if_pos hc]
      constructor
      · by_cases hp : p cur <;> simp [hp, hc]
      · simpa using hmx
    · rw [if_neg hc]
      constructor
      · simp [show ¬ (cur < mx) from hc]
      · simpa using (by omega : mx ≤ cur)
  | cons x r ih =>
    intro cur hpw
    rcases List.pairwise_cons.mp hpw with ⟨hhead, htail⟩
    rw [scoreLoop]
    by_cases hc : cur < mx
    · rw [if_pos hc]
      obtain ⟨ih1, ih2⟩ := ih x htail
      constructor
      · by_cases hp : p cur <;> simp [hp, hc, ih1, List.filter_cons]
      · simpa using ih2
    · rw [if_neg hc]
      constructor
      · symm
        apply List.filter_eq_nil_iff.mpr
        intro a ha
        have hma : mx ≤ a := by
          rcases List.mem_cons.mp ha with rfl | ha2
          · omega
          · have := hhead a ha2
            omega
        simp [show ¬ (a < mx) by omega]
      · simpa using (by omega : mx ≤ cur)

theorem sAdvance_dropWhile (t : Int) : ∀ l : List Int,
    sAdvance t l =
      match l.dropWhile (fun d => decide (d < t)) with
      | [] => (NO_MORE_DOCS, [])
      | d :: r => (d, r) := by
  intro l
  induction l with
  | nil => simp [sAdvance]
  | cons a l ih =>
    by_cases h : a < t
    · rw [List.dropWhile_cons, if_pos (by simpa using h)]
      rw [show sAdvance t (a :: l) = sAdvance t l by rw [sAdvance, if_pos h]]
      exact ih
    · rw [List.dropWhile_cons, if_neg (by simpa using h)]
      rw [sAdvance, if_neg h]

theorem filter_dropWhile_lt (mn : Int) (q : Int → Bool) : ∀ l : List Int,
    List.Pairwise (· < ·) l →
    l.filter (fun d => decide (mn ≤ d) && q d) =
      (l.dropWhile (fun d => decide (d < mn))).filter q := by
  intro l
  induction l with
  | nil => simp
  | cons a l ih =>
    intro hpw
    rcases List.pairwise_cons.mp hpw with ⟨hhead, htail⟩
    by_cases h : a < mn
    · rw [List.dropWhile_cons, if_pos (by simpa using h)]
      rw [List.filter_cons]
      have hfalse : (decide (mn ≤ a) && q a) = false := by
        simp [show ¬ (mn ≤ a) by omega]
      rw [hfalse]
      simp only [Bool.false_eq_true, if_false]
      exact ih htail
    · rw [List.dropWhile_cons, if_neg (by simpa using h)]
      apply List.filter_congr
      intro x hx
      have hmnx : mn ≤ x := by
        rcases List.mem_cons.mp hx with rfl | hx2
        · omega
        · have := hhead x hx2
          omega
      simp [hmnx]

/-- Positioning with `approximate_next` (at `min = 0`) or
`approximate_advance(min)` lands on the first candidate ≥ `min`. -/
theorem position_eq_dropWhile (docs : List Int) (mn mx : Int)
    (hdocs : ∀ d ∈ docs, 0 ≤ d ∧ d < NO_MORE_DOCS) (hmn : 0 ≤ mn) :
    (if mn = 0 ∧ mx = NO_MORE_DOCS then sNext docs else sAdvance mn docs) =
      match docs.dropWhile (fun d => decide (d < mn)) with
      | [] => (NO_MORE_DOCS, [])
      | d :: r => (d, r) := by
  split
  · rename_i hcase
    obtain ⟨h0, _⟩ := hcase
    subst h0
    match docs with
    | [] => simp [sNext]
    | a :: l =>
      have ha : ¬ (a < 0) := by have := (hdocs a (by simp)).1; omega
      rw [List.dropWhile_cons, if_neg (by simpa using ha)]
      simp [sNext]
  · exact sAdvance_dropWhile mn docs

/-- Positioning followed by the collection loop gathers exactly the
candidates in `[min, max)` accepted by the loop's test. -/
theorem position_loop_spec (p : Int → Bool) (docs : List Int)
    (mn mx cur : Int) (rem : List Int)
    (hsorted : List.Pairwise (· < ·) docs)
    (hdocs : ∀ d ∈ docs, 0 ≤ d ∧ d < NO_MORE_DOCS)
    (hmn : 0 ≤ mn) (hmx : mx ≤ NO_MORE_DOCS)
    (hP : (if mn = 0 ∧ mx = NO_MORE_DOCS then sNext docs else sAdvance mn docs)
      = (cur, rem)) :
    (scoreLoop p mx cur rem).1 =
      docs.filter (fun d => decide (mn ≤ d) && (decide (d < mx) && p d)) ∧
    List.Pairwise (· < ·) (scoreLoop p mx cur rem).1 ∧
    mx ≤ (scoreLoop p mx cur rem).2.1 := by
  have hdw := position_eq_dropWhile docs mn mx hdocs hmn
  rw [hP] at hdw
  have hfilter := filter_dropWhile_lt mn (fun d => decide (d < mx) && p d)
    docs hsorted
  rcases hD : docs.dropWhile (fun d => decide (d < mn)) with _ | ⟨d0, r0⟩
  · rw [hD] at hdw
    obtain ⟨hcur, hrem⟩ := Prod.mk.injEq .. ▸ hdw
    subst hcur
    subst hrem
    have hempty : docs.filter (fun d => decide (mn ≤ d) && (decide (d < mx) && p d))
        = [] := by
      rw [hfilter, hD]
      simp
    rw [scoreLoop]
    rw [if_neg (by omega)]
    exact ⟨hempty.symm, by simp, by simpa using hmx⟩
  · rw [hD] at hdw
    obtain ⟨hcur, hrem⟩ := Prod.mk.injEq .. ▸ hdw
    subst hcur
    subst hrem
    have hsub : List.Sublist (cur :: rem) docs := by
      rw [← hD]
      exact List.dropWhile_sublist _
    have hpw : List.Pairwise (· < ·) (cur :: rem) := hsorted.sublist hsub
    obtain ⟨h1, h2⟩ := scoreLoop_spec p mx hmx rem cur hpw
    refine ⟨?_, ?_, h2⟩
    · rw [h1, hfilter, hD]
    · rw [h1]
      exact hpw.sublist (List.filter_sublist _)

theorem score_range_eq_loop (tp : Bool) (f : Int → Bool)
    (accept_docs : Option (Int → Bool)) (cur : Int) (rem : List Int)
    (mx : Int) :
    score_range tp f accept_docs cur rem mx =
      scoreLoop (fun d => acceptsB accept_docs d && (if tp then f d else true))
        mx cur rem := by
  have hfun : ∀ p q : Int → Bool, (∀ d, p d = q d) →
      scoreLoop p mx cur rem = scoreLoop q mx cur rem := by
    intro p q h
    rw [funext h]
  rcases accept_docs with _ | bits <;> cases tp <;>
    simp only [score_range, score_range_all, score_range_in_docs_set,
      if_true, if_false, Bool.false_eq_true] <;>
    (apply hfun; intro d; simp [acceptsB])

/-- C1: `BulkScorer::score(collector, bits, min, max)` over a fresh model
scorer collects exactly the matching docs `d` with `min ≤ d < max` passing
the filter bits (ascending, since it is a filter of the sorted candidate
list), returns a DocId ≥ `max`, and positions with `approximate_next` when
`min == 0 && max == NO_MORE_DOCS` and with `approximate_advance(min)`
otherwise. -/
theorem bulk_scorer_score (tp : Bool) (f : Int → Bool)
    (accept_docs : Option (Int → Bool)) (docs : List Int) (mn mx : Int)
    (hsorted : List.Pairwise (· < ·) docs)
    (hdocs : ∀ d ∈ docs, 0 ≤ d ∧ d < NO_MORE_DOCS)
    (hmn : 0 ≤ mn) (_hmnmx : mn ≤ mx) (hmx : mx ≤ NO_MORE_DOCS) :
    (bulk_score tp f accept_docs docs mn mx).1 =
      (matchedDocs tp f docs).filter
        (fun d => (decide (mn ≤ d) && decide (d < mx)) &&
          acceptsB accept_docs d) ∧
    List.Pairwise (· < ·) (bulk_score tp f accept_docs docs mn mx).1 ∧
    mx ≤ (bulk_score tp f accept_docs docs mn mx).2.1 ∧
    (mn = 0 ∧ mx = NO_MORE_DOCS →
      bulk_score tp f accept_docs docs mn mx =
        score_range tp f accept_docs (sNext docs).1 (sNext docs).2 mx) ∧
    (¬(mn = 0 ∧ mx = NO_MORE_DOCS) →
      bulk_score tp f accept_docs docs mn mx =
        score_range tp f accept_docs (sAdvance mn docs).1 (sAdvance mn docs).2 mx) := by
  rcases hP : (if mn = 0 ∧ mx = NO_MORE_DOCS then sNext docs
    else sAdvance mn docs) with ⟨cur, rem⟩
  have hbs : bulk_score tp f accept_docs docs mn mx =
      score_range tp f accept_docs cur rem mx := by
    unfold bulk_score
    rw [hP]
  have hbs2 : bulk_score tp f accept_docs docs mn mx =
      scoreLoop (fun d => acceptsB accept_docs d && (if tp then f d else true))
        mx cur rem :=
    hbs.trans (score_range_eq_loop tp f accept_docs cur rem mx)
  obtain ⟨c1, c2, c3⟩ := position_loop_spec
    (fun d => acceptsB accept_docs d && (if tp then f d else true))
    docs mn mx cur rem hsorted hdocs hmn hmx hP
  refine ⟨?_, ?_, ?_, ?_, ?_⟩
  · rw [hbs2, c1]
    cases tp
    · simp only [matchedDocs, Bool.false_eq_true, if_false]
      apply List.filter_congr
      intro x _
      cases hb : acceptsB accept_docs x <;> cases h1 : decide (mn ≤ x) <;>
        cases h2 : decide (x < mx) <;> simp [hb, h1, h2]
    · simp only [matchedDocs, if_true]
      rw [List.filter_filter]
      apply List.filter_congr
      intro x _
      cases hb : acceptsB accept_docs x <;> cases hf : f x <;>
        cases h1 : decide (mn ≤ x) <;> cases h2 : decide (x < mx) <;>
        simp [hb, hf, h1, h2]
  · rw [hbs2]
    exact c2
  · rw [hbs2]
    exact c3
  · intro h
    rw [hbs, show sNext docs = (cur, rem) by rw [← hP, if_pos h]]
  · intro h
    rw [hbs, show sAdvance mn docs = (cur, rem) by rw [← hP, if_neg h]]

/-- C1 witness: two-phase scorer over candidates 1..5 with `matches()`
rejecting 3 and bits rejecting 2, over the whole doc range: collects
[1, 4, 5] in order and returns `NO_MORE_DOCS`. -/
theorem bulk_scorer_score_witness :
    (bulk_score true bsMatches (some bsBits) [1, 2, 3, 4, 5] 0 NO_MORE_DOCS).1 =
      [1, 4, 5] ∧
    NO_MORE_DOCS ≤
      (bulk_score true bsMatches (some bsBits) [1, 2, 3, 4, 5] 0 NO_MORE_DOCS).2.1 := by
  have h := bulk_scorer_score true bsMatches (some bsBits) [1, 2, 3, 4, 5]
    0 NO_MORE_DOCS (by decide) (by decide) (by decide) (by decide) (by decide)
  refine ⟨h.1.trans (by decide), h.2.2.1⟩
